import Mathlib

/-!
# Verification of the FunctionEncoder representation subsystem

A shallow embedding, over exact rational arithmetic, of the core of the
`FunctionEncoder` repository: the three inner-product definitions
(deterministic, stochastic, categorical), the least-squares and
inner-product representation solvers, `compute_representation`,
`predict`, `predict_from_examples`, the parameter-count oracle against
the constructed layer stacks, the Deep Sets representation encoder, and
a forward-mode derivative model of the residual-mode training step.

Tensors of rank 3 or 4 are embedded as total functions `Nat → … → ℚ`
together with explicit shape data; entries outside the shape bounds are
junk, exactly as the flat storage of a framework tensor.  Python
assertions become `Except FEErr` results.
-/

/-- The `data_type` strings selecting the inner-product definition. -/
inductive DataType
  | deterministic
  | stochastic
  | categorical
deriving DecidableEq

/-- The `representation_mode` strings. -/
inductive RepMode
  | innerProductMode
  | leastSquares
  | encoderNetwork
deriving DecidableEq

/-- Failure conditions raised by the Python assertions (each constructor
corresponds to one family of assertion messages). -/
inductive FEErr
  | rank
  | funcMismatch
  | dataMismatch
  | outMismatch
  | stochasticOut
  | negLambda
  | inputShape
  | outputShape
  | batchShape
  | basisMismatch
  | modeErr
  | paramMismatch
deriving DecidableEq

/-- A function-evaluation tensor of shape `(F, D, M)` (when `K = none`,
rank 3) or `(F, D, M, k)` (when `K = some k`, rank 4).  A rank-3 tensor
stores its values at last index `0`, matching `unsqueeze(-1)`. -/
structure VTensor where
  F : Nat
  D : Nat
  M : Nat
  K : Option Nat
  data : Nat → Nat → Nat → Nat → ℚ

/-- `torch.einsum("fdmk,fdml->fdkl", fs, gs)`: the element-wise inner
products, summed over the output axis `m`. -/
def elementwiseIP (M : Nat) (fd gd : Nat → Nat → Nat → Nat → ℚ) :
    Nat → Nat → Nat → Nat → ℚ :=
  fun f d k l => ∑ m ∈ Finset.range M, fd f d m k * gd f d m l

/-- `torch.mean(·, dim=1)`: the mean over the datapoint axis. -/
def meanDim1 (D : Nat) (t : Nat → Nat → Nat → Nat → ℚ) :
    Nat → Nat → Nat → ℚ :=
  fun f k l => (∑ d ∈ Finset.range D, t f d k l) / (D : ℚ)

/-- `_deterministic_inner_product` core: Monte-Carlo mean over the
datapoint axis of the element-wise products. -/
def detIPdata (D M : Nat) (fd gd : Nat → Nat → Nat → Nat → ℚ) :
    Nat → Nat → Nat → ℚ :=
  meanDim1 D (elementwiseIP M fd gd)

/-- `fs - torch.mean(fs, dim=1, keepdim=True)`: centering over the
datapoint axis. -/
def centerDim1 (D : Nat) (fd : Nat → Nat → Nat → Nat → ℚ) :
    Nat → Nat → Nat → Nat → ℚ :=
  fun f d m k => fd f d m k - (∑ d' ∈ Finset.range D, fd f d' m k) / (D : ℚ)

/-- `fs - torch.mean(fs, dim=2, keepdim=True)`: centering over the
category axis. -/
def centerDim2 (M : Nat) (fd : Nat → Nat → Nat → Nat → ℚ) :
    Nat → Nat → Nat → Nat → ℚ :=
  fun f d m k => fd f d m k - (∑ m' ∈ Finset.range M, fd f d m' k) / (M : ℚ)

/-- `_stochastic_inner_product` core: both operands centered over the
datapoint axis, then the deterministic Monte-Carlo form. -/
def stochIPdata (D M : Nat) (fd gd : Nat → Nat → Nat → Nat → ℚ) :
    Nat → Nat → Nat → ℚ :=
  meanDim1 D (elementwiseIP M (centerDim1 D fd) (centerDim1 D gd))

/-- `_categorical_inner_product` core: both operands centered over the
category axis, then the deterministic Monte-Carlo form. -/
def catIPdata (D M : Nat) (fd gd : Nat → Nat → Nat → Nat → ℚ) :
    Nat → Nat → Nat → ℚ :=
  meanDim1 D (elementwiseIP M (centerDim2 M fd) (centerDim2 M gd))

/-- The value computed by the inner-product engine for a given
`data_type`, once the shape assertions have passed. -/
def ipData (dt : DataType) (D M : Nat) (fd gd : Nat → Nat → Nat → Nat → ℚ) :
    Nat → Nat → Nat → ℚ :=
  match dt with
  | .deterministic => detIPdata D M fd gd
  | .stochastic => stochIPdata D M fd gd
  | .categorical => catIPdata D M fd gd

/-- Result of `_inner_product`: shape `(F, Kf, Kg)`, where a `none`
axis was squeezed away (its values sit at index `0`). -/
structure IPResult where
  F : Nat
  Kf : Option Nat
  Kg : Option Nat
  data : Nat → Nat → Nat → ℚ

/-- `FunctionEncoder._inner_product`: asserts that the function,
datapoint and output axes of `fs` and `gs` agree, then dispatches on
the data type; the stochastic form additionally requires the output
axis to be `1`. -/
def innerProduct (dt : DataType) (fs gs : VTensor) : Except FEErr IPResult :=
  if fs.F ≠ gs.F then .error .funcMismatch
  else if fs.D ≠ gs.D then .error .dataMismatch
  else if fs.M ≠ gs.M then .error .outMismatch
  else
    match dt with
    | .deterministic =>
        .ok ⟨fs.F, fs.K, gs.K, detIPdata fs.D fs.M fs.data gs.data⟩
    | .stochastic =>
        if fs.M = 1 then
          .ok ⟨fs.F, fs.K, gs.K, stochIPdata fs.D fs.M fs.data gs.data⟩
        else .error .stochasticOut
    | .categorical =>
        .ok ⟨fs.F, fs.K, gs.K, catIPdata fs.D fs.M fs.data gs.data⟩

/-- Transpose of an inner-product result in its last two axes. -/
def transposeIPR (r : IPResult) : IPResult :=
  ⟨r.F, r.Kg, r.Kf, fun f k l => r.data f l k⟩

/-- `torch.Tensor.inverse` modelled over `ℚ` as the adjugate formula
`det⁻¹ • adjugate` (the nonsingular inverse; on a singular input torch
raises, and this formula returns the zero matrix). -/
def matInv (n : Nat) (A : Matrix (Fin n) (Fin n) ℚ) : Matrix (Fin n) (Fin n) ℚ :=
  (A.det)⁻¹ • A.adjugate

/-- Entry-level view of `matInv` on flat data, zero outside bounds. -/
def invData (n : Nat) (A : Nat → Nat → ℚ) : Nat → Nat → ℚ :=
  fun i j =>
    if hi : i < n then
      if hj : j < n then
        matInv n (Matrix.of fun a b : Fin n => A a.val b.val) ⟨i, hi⟩ ⟨j, hj⟩
      else 0
    else 0

/-- `lambd is not None and lambd < 0`: the negated regularizer guard. -/
def lambdaNegative : Option ℚ → Bool
  | some l => decide (l < 0)
  | none => false

/-- `FunctionEncoder._compute_least_squares_representation`.

Asserts rank 4 for `Gs`, rank 3 for `example_ys`, matching `F`/`D`/`M`
axes and a non-negative (or absent) `lambd`; defaults `lambd` to the
constant `1e-3`; computes `gram = ⟨Gs, Gs⟩`, regularizes the diagonal,
computes `b = ⟨Gs, example_ys⟩`, and returns
`einsum("fkl,fl->fk", (gram + λI).inverse(), b)` together with the
unregularized Gram matrix. -/
def computeLeastSquaresRepresentation (dt : DataType) (nBasis : Nat)
    (Gs ys : VTensor) (lambd : Option ℚ) :
    Except FEErr ((Nat → Nat → ℚ) × IPResult) :=
  if Gs.K.isNone then .error .rank
  else if ys.K.isSome then .error .rank
  else if Gs.F ≠ ys.F then .error .funcMismatch
  else if Gs.D ≠ ys.D then .error .dataMismatch
  else if Gs.M ≠ ys.M then .error .outMismatch
  else if lambdaNegative lambd then .error .negLambda
  else
    let lam := lambd.getD (1 / 1000)
    match innerProduct dt Gs Gs with
    | .error e => .error e
    | .ok gram =>
      let gramReg : Nat → Nat → Nat → ℚ :=
        fun f k l => gram.data f k l + (if k = l then lam else 0)
      match innerProduct dt Gs ys with
      | .error e => .error e
      | .ok ipRep =>
        let lsRep : Nat → Nat → ℚ :=
          fun f k => ∑ l ∈ Finset.range nBasis,
            invData nBasis (gramReg f) k l * ipRep.data f l 0
        .ok (lsRep, gram)

/-- The per-function Gram matrix `⟨Gs, Gs⟩` as a square matrix. -/
def gramMat (dt : DataType) (nBasis : Nat) (Gs : VTensor) (f : Nat) :
    Matrix (Fin nBasis) (Fin nBasis) ℚ :=
  Matrix.of fun k l : Fin nBasis => ipData dt Gs.D Gs.M Gs.data Gs.data f k.val l.val

/-- The per-function cross term `b = ⟨Gs, example_ys⟩` as a vector. -/
def bVec (dt : DataType) (nBasis : Nat) (Gs ys : VTensor) (f : Nat) :
    Fin nBasis → ℚ :=
  fun k => ipData dt Gs.D Gs.M Gs.data ys.data f k.val 0

/-- `_compute_inner_product_representation`: asserts the shapes and
returns `⟨Gs, example_ys⟩` (squeezed to shape `(F, K)`). -/
def computeInnerProductRepresentation (dt : DataType) (Gs ys : VTensor) :
    Except FEErr (Nat → Nat → ℚ) :=
  if Gs.K.isNone then .error .rank
  else if ys.K.isSome then .error .rank
  else if Gs.F ≠ ys.F then .error .funcMismatch
  else if Gs.D ≠ ys.D then .error .dataMismatch
  else if Gs.M ≠ ys.M then .error .outMismatch
  else do
    let r ← innerProduct dt Gs ys
    return fun f k => r.data f k 0

/-- The regularized Gram data `gram + lam * eye(n_basis)` formed inside
the least-squares solver. -/
def gramRegData (dt : DataType) (Gs : VTensor) (lam : ℚ) : Nat → Nat → Nat → ℚ :=
  fun f k l => ipData dt Gs.D Gs.M Gs.data Gs.data f k l + (if k = l then lam else 0)

/-- The least-squares coefficients as computed by the solver on the
success path: `einsum("fkl,fl->fk", (gram + lam I).inverse(), b)`. -/
def lsRepData (dt : DataType) (nBasis : Nat) (Gs ys : VTensor) (lam : ℚ) :
    Nat → Nat → ℚ :=
  fun f k => ∑ l ∈ Finset.range nBasis,
    invData nBasis (gramRegData dt Gs lam f) k l
      * ipData dt Gs.D Gs.M Gs.data ys.data f l 0

/-- The state of a constructed `FunctionEncoder` relevant to the
representation/prediction paths, for 1-D inputs and 1-D outputs.  The
neural networks are abstracted as the batched maps their `forward`
methods implement: the basis network maps an `(f, d, i)` input tensor
to an `(f, d, m, k)` evaluation tensor, the optional average function
to an `(f, d, m)` tensor, and the optional representation encoder maps
the example pair to an `(f, k)` representation. -/
structure FE where
  inputSize : Nat
  outputSize : Nat
  nBasis : Nat
  dataType : DataType
  mode : RepMode
  modelForward : (Nat → Nat → Nat → ℚ) → (Nat → Nat → Nat → Nat → ℚ)
  avgForward : Option ((Nat → Nat → Nat → ℚ) → (Nat → Nat → Nat → ℚ))
  encForward : Option ((Nat → Nat → Nat → ℚ) → (Nat → Nat → Nat → ℚ) → (Nat → Nat → ℚ))

/-- An `example_xs` / `example_ys` / `query_xs` argument: either rank 3
`(f, d, last)` (batched) or rank 2 `(d, last)` (a single function with
no leading function axis). -/
inductive IOTensor
  | batched (F D last : Nat) (data : Nat → Nat → Nat → ℚ)
  | single (D last : Nat) (data : Nat → Nat → ℚ)

/-- A returned representation: rank 2 `(f, k)`, or rank 1 `(k)` after
`squeeze(0)` on the single-function path. -/
inductive RepResult
  | batched (F K : Nat) (data : Nat → Nat → ℚ)
  | single (K : Nat) (data : Nat → ℚ)

/-- `representation.squeeze(0)` for an `F = 1` batched representation. -/
def squeezeRep : RepResult → RepResult
  | .batched _ K d => .single K (d 0)
  | .single K d => .single K d

/-- The body of `compute_representation` after the function axis has
been normalized to rank 3: optionally subtract the average function
under `no_grad`, forward the basis network, and dispatch on the
representation mode (the encoder network receives the example outputs
with the average added back). -/
def coreRep (fe : FE) (F D : Nat) (xs ys : Nat → Nat → Nat → ℚ)
    (lambd : Option ℚ) :
    Except FEErr ((Nat → Nat → ℚ) × Option (Nat → Nat → Nat → ℚ)) :=
  let ysResid : Nat → Nat → Nat → ℚ :=
    match fe.avgForward with
    | some av => fun f d m => ys f d m - av xs f d m
    | none => ys
  let Gs := fe.modelForward xs
  let GsT : VTensor := ⟨F, D, fe.outputSize, some fe.nBasis, Gs⟩
  let ysT : VTensor := ⟨F, D, fe.outputSize, none, fun f d m _ => ysResid f d m⟩
  match fe.mode with
  | .innerProductMode => do
      let rep ← computeInnerProductRepresentation fe.dataType GsT ysT
      return (rep, none)
  | .leastSquares => do
      let rg ← computeLeastSquaresRepresentation fe.dataType fe.nBasis GsT ysT lambd
      return (rg.1, some rg.2.data)
  | .encoderNetwork =>
      match fe.encForward with
      | none => .error .modeErr
      | some enc =>
          let originalYs : Nat → Nat → Nat → ℚ :=
            match fe.avgForward with
            | some av => fun f d m => ysResid f d m + av xs f d m
            | none => ysResid
          .ok (enc xs originalYs, none)

/-- `FunctionEncoder.compute_representation`: asserts the trailing
dimensions against `input_size` / `output_size` and that the leading
shapes agree; adds a function axis when the input is a single function
and squeezes it off the result. -/
def computeRepresentation (fe : FE) (exs eys : IOTensor) (lambd : Option ℚ) :
    Except FEErr (RepResult × Option (Nat → Nat → Nat → ℚ)) :=
  match exs, eys with
  | .batched F D n dx, .batched F' D' m dy =>
      if n ≠ fe.inputSize then .error .inputShape
      else if m ≠ fe.outputSize then .error .outputShape
      else if F ≠ F' ∨ D ≠ D' then .error .batchShape
      else (coreRep fe F D dx dy lambd).map
        fun rg => (RepResult.batched F fe.nBasis rg.1, rg.2)
  | .single D n dx, .single D' m dy =>
      if n ≠ fe.inputSize then .error .inputShape
      else if m ≠ fe.outputSize then .error .outputShape
      else if D ≠ D' then .error .batchShape
      else (coreRep fe 1 D (fun _ => dx) (fun _ => dy) lambd).map
        fun rg => (squeezeRep (RepResult.batched 1 fe.nBasis rg.1), rg.2)
  | _, _ => .error .batchShape

/-- `FunctionEncoder.predict`: asserts rank 3 for `query_xs`, rank 2
for the representations and agreement on the function axis; forwards
the basis network, combines with `einsum("fdmk,fk->fdm")` (which itself
requires the representation axis to equal `n_basis`), and adds the
average-function output, taking the precomputed value when given. -/
def predict (fe : FE) (qxs : IOTensor) (reps : RepResult)
    (preAvg : Option (Nat → Nat → Nat → ℚ)) :
    Except FEErr (Nat → Nat → Nat → ℚ) :=
  match qxs, reps with
  | .batched F _D _n dx, .batched F' K r =>
      if F ≠ F' then .error .funcMismatch
      else if K ≠ fe.nBasis then .error .basisMismatch
      else
        let Gs := fe.modelForward dx
        let yh : Nat → Nat → Nat → ℚ :=
          fun f d m => ∑ k ∈ Finset.range fe.nBasis, Gs f d m k * r f k
        match fe.avgForward with
        | some av => .ok (fun f d m => yh f d m + (preAvg.getD (av dx)) f d m)
        | none => .ok yh
  | _, _ => .error .rank

/-- `FunctionEncoder.predict_from_examples`: asserts rank 3 on all
three inputs (no single-function auto-wrapping here), the trailing
dimensions, and matching function axes; then composes
`compute_representation` with `predict`. -/
def predictFromExamples (fe : FE) (exs eys qxs : IOTensor)
    (lambd : Option ℚ) : Except FEErr (Nat → Nat → Nat → ℚ) :=
  match exs, eys, qxs with
  | .batched F D n dx, .batched F' D' m dy, .batched Fq Dq nq dq =>
      if n ≠ fe.inputSize then .error .inputShape
      else if m ≠ fe.outputSize then .error .outputShape
      else if nq ≠ fe.inputSize then .error .inputShape
      else if F ≠ F' then .error .funcMismatch
      else if F ≠ Fq then .error .funcMismatch
      else do
        let rg ← computeRepresentation fe (.batched F D n dx)
          (.batched F' D' m dy) lambd
        predict fe (.batched Fq Dq nq dq) rg.1 none
  | _, _, _ => .error .rank

/-- The `aggregation` choices of the Deep Sets encoder. -/
inductive Aggregation
  | mean
  | sum
  | max
  | attention
deriving DecidableEq

/-- Parameter count of `torch.nn.Linear(i, o)`: weight `o × i` plus
bias `o`. -/
def linearParams (i o : ℤ) : ℤ := i * o + o

/-- Parameter count of `torch.nn.LayerNorm(w)`: weight and bias. -/
def layerNormParams (w : ℤ) : ℤ := 2 * w

/-- The flattened output width of the basis/average `MLP`:
`output_size[0] * n_basis` when learning basis functions, else
`output_size[0]`. -/
def mlpOutputDim (outputSize nBasis : ℕ) (learnBasis : Bool) : ℤ :=
  if learnBasis then (outputSize : ℤ) * nBasis else (outputSize : ℤ)

/-- Parameters of the layer stack built by `MLP.__init__`:
`Linear(input, hidden)`, then `range(n_layers - 2)` copies of
`Linear(hidden, hidden)`, then `Linear(hidden, output)` (the Python
`range` of a negative count is empty, as is the `ℕ` subtraction). -/
def mlpActualParams (inputSize outputSize nBasis hidden nLayers : ℕ)
    (learnBasis : Bool) : ℤ :=
  linearParams inputSize hidden
    + ((nLayers - 2 : ℕ) : ℤ) * linearParams hidden hidden
    + linearParams hidden (mlpOutputDim outputSize nBasis learnBasis)

/-- `MLP.predict_number_params`: the closed-form oracle, over Python
integers (so `n_layers - 2` may be negative). -/
def mlpPredictNumberParams (inputSize outputSize nBasis hidden nLayers : ℕ)
    (learnBasis : Bool) : ℤ :=
  (inputSize : ℤ) * hidden + hidden
    + ((nLayers : ℤ) - 2) * hidden * hidden + ((nLayers : ℤ) - 2) * hidden
    + (hidden : ℤ) * mlpOutputDim outputSize nBasis learnBasis
    + mlpOutputDim outputSize nBasis learnBasis

/-- Parameters of the `phi`/`rho`-style stack built by
`RepresentationEncoderDeepSets.__init__`: a single linear layer when
`nL = 1`, otherwise an input layer (with optional layer norm),
`range(nL - 2)` hidden layers (each with optional layer norm) and an
output layer. -/
def encStackActualParams (inDim outDim hid nL : ℕ) (useLN : Bool) : ℤ :=
  if nL = 1 then linearParams inDim outDim
  else
    linearParams inDim hid + (if useLN then layerNormParams hid else 0)
      + ((nL - 2 : ℕ) : ℤ) *
          (linearParams hid hid + (if useLN then layerNormParams hid else 0))
      + linearParams hid outDim

/-- The `phi`/`rho` part of
`RepresentationEncoderDeepSets.predict_number_params` (linear terms and
layer-norm terms, summed). -/
def encStackPredictParams (inDim outDim hid nL : ℕ) (useLN : Bool) : ℤ :=
  if nL = 1 then ((inDim : ℤ) + 1) * outDim
  else
    ((inDim : ℤ) + 1) * hid + (if useLN then 2 * (hid : ℤ) else 0)
      + ((nL - 2 : ℕ) : ℤ) *
          (((hid : ℤ) + 1) * hid + (if useLN then 2 * (hid : ℤ) else 0))
      + ((hid : ℤ) + 1) * outDim

/-- Parameters of the modules built by
`RepresentationEncoderDeepSets.__init__`: the `phi` stack on the
concatenated `(x, y)` input, the `rho` stack onto `n_basis`, and a
`Linear(phi_output_dim, 1)` attention net when aggregating by
attention. -/
def encoderActualParams (inputSize outputSize nBasis phiHidden phiLayers
    rhoHidden rhoLayers : ℕ) (agg : Aggregation) (useLN : Bool) : ℤ :=
  encStackActualParams (inputSize + outputSize) phiHidden phiHidden phiLayers useLN
    + encStackActualParams phiHidden nBasis rhoHidden rhoLayers useLN
    + (if agg = .attention then linearParams phiHidden 1 else 0)

/-- `RepresentationEncoderDeepSets.predict_number_params`. -/
def encoderPredictNumberParams (inputSize outputSize nBasis phiHidden phiLayers
    rhoHidden rhoLayers : ℕ) (agg : Aggregation) (useLN : Bool) : ℤ :=
  encStackPredictParams (inputSize + outputSize) phiHidden phiHidden phiLayers useLN
    + encStackPredictParams phiHidden nBasis rhoHidden rhoLayers useLN
    + (if agg = .attention then ((phiHidden : ℤ) + 1) * 1 else 0)

/-- A `FunctionEncoder` configuration with an `MLP` basis/average
architecture (1-D input and output) and a Deep Sets encoder. -/
structure FEConfig where
  inputSize : Nat
  outputSize : Nat
  nBasis : Nat
  hiddenSize : Nat
  nLayers : Nat
  mode : RepMode
  useResiduals : Bool
  phiHidden : Nat
  phiLayers : Nat
  rhoHidden : Nat
  rhoLayers : Nat
  aggregation : Aggregation
  useLayerNorm : Bool

/-- `FunctionEncoder.predict_number_params` for an `MLP` model type:
the basis-network count, plus the average-function count in residual
mode, plus the encoder count in `encoder_network` mode. -/
def fePredictNumberParams (c : FEConfig) : ℤ :=
  mlpPredictNumberParams c.inputSize c.outputSize c.nBasis c.hiddenSize c.nLayers true
    + (if c.useResiduals then
        mlpPredictNumberParams c.inputSize c.outputSize c.nBasis c.hiddenSize c.nLayers false
      else 0)
    + (if c.mode = .encoderNetwork then
        encoderPredictNumberParams c.inputSize c.outputSize c.nBasis c.phiHidden
          c.phiLayers c.rhoHidden c.rhoLayers c.aggregation c.useLayerNorm
      else 0)

/-- The total parameter count of the modules actually assembled by
`FunctionEncoder.__init__` for the same configuration. -/
def feActualParams (c : FEConfig) : ℤ :=
  mlpActualParams c.inputSize c.outputSize c.nBasis c.hiddenSize c.nLayers true
    + (if c.useResiduals then
        mlpActualParams c.inputSize c.outputSize c.nBasis c.hiddenSize c.nLayers false
      else 0)
    + (if c.mode = .encoderNetwork then
        encoderActualParams c.inputSize c.outputSize c.nBasis c.phiHidden
          c.phiLayers c.rhoHidden c.rhoLayers c.aggregation c.useLayerNorm
      else 0)

/-- `FunctionEncoder.__init__` for an `MLP` model type: the entry
assertions on the input/output sizes, the per-module parameter
self-checks run by each sub-architecture constructor, and the final
construction-time check that the assembled total equals the oracle. -/
def feInit (c : FEConfig) : Except FEErr Unit :=
  if c.inputSize < 1 then .error .inputShape
  else if c.outputSize < 1 then .error .outputShape
  else if mlpActualParams c.inputSize c.outputSize c.nBasis c.hiddenSize c.nLayers true
      ≠ mlpPredictNumberParams c.inputSize c.outputSize c.nBasis c.hiddenSize c.nLayers true
    then .error .paramMismatch
  else if c.useResiduals ∧
      mlpActualParams c.inputSize c.outputSize c.nBasis c.hiddenSize c.nLayers false
        ≠ mlpPredictNumberParams c.inputSize c.outputSize c.nBasis c.hiddenSize c.nLayers false
    then .error .paramMismatch
  else if c.mode = .encoderNetwork ∧
      encoderActualParams c.inputSize c.outputSize c.nBasis c.phiHidden
          c.phiLayers c.rhoHidden c.rhoLayers c.aggregation c.useLayerNorm
        ≠ encoderPredictNumberParams c.inputSize c.outputSize c.nBasis c.phiHidden
          c.phiLayers c.rhoHidden c.rhoLayers c.aggregation c.useLayerNorm
    then .error .paramMismatch
  else if feActualParams c ≠ fePredictNumberParams c then .error .paramMismatch
  else .ok ()

/-- `torch.max(·, dim)[0]` over a datapoint axis of positive length
(torch raises on an empty axis; the `D = 0` branch is junk). -/
def maxOverD (D : Nat) (g : Fin D → ℚ) : ℚ :=
  if h : 0 < D then
    haveI : Nonempty (Fin D) := ⟨⟨0, h⟩⟩
    Finset.univ.sup' Finset.univ_nonempty g
  else 0

/-- The modules of a `RepresentationEncoderDeepSets`, abstracted as the
maps their `forward` methods implement: `phi` on a concatenated
`(x, y)` point, the attention scorer, and `rho` on the aggregate.
`expFn` abstracts the pointwise exponential inside `torch.softmax`
(the softmax weight of point `d` is `expFn s_d / Σ expFn s`). -/
structure DeepSets (inDim outDim phiDim nBasis : Nat) where
  phi : (Fin (inDim + outDim) → ℚ) → Fin phiDim → ℚ
  attentionNet : (Fin phiDim → ℚ) → ℚ
  rho : (Fin phiDim → ℚ) → Fin nBasis → ℚ
  aggregation : Aggregation
  expFn : ℚ → ℚ

/-- `RepresentationEncoderDeepSets.forward`: concatenate each
`(x_i, y_i)` pair, apply `phi` pointwise, aggregate over the datapoint
axis by the configured reduction, and apply `rho`. -/
def dsForward {inDim outDim phiDim nBasis : Nat}
    (e : DeepSets inDim outDim phiDim nBasis) (F D : Nat)
    (xs : Fin F → Fin D → Fin inDim → ℚ)
    (ys : Fin F → Fin D → Fin outDim → ℚ) :
    Fin F → Fin nBasis → ℚ :=
  fun f =>
    let phiOut : Fin D → Fin phiDim → ℚ :=
      fun d => e.phi (Fin.append (xs f d) (ys f d))
    let aggregated : Fin phiDim → ℚ :=
      match e.aggregation with
      | .mean => fun j => (∑ d, phiOut d j) / (D : ℚ)
      | .sum => fun j => ∑ d, phiOut d j
      | .max => fun j => maxOverD D (fun d => phiOut d j)
      | .attention => fun j =>
          ∑ d, phiOut d j *
            (e.expFn (e.attentionNet (phiOut d)) /
              ∑ d', e.expFn (e.attentionNet (phiOut d')))
    e.rho aggregated

/-- A forward-mode dual number `(value, derivative)` with respect to a
single chosen network parameter: the semantics of one autograd
direction. -/
abbrev Dual := ℚ × ℚ

/-- A constant (no dependence on the differentiation parameter). -/
def dC (q : ℚ) : Dual := (q, 0)

/-- Dual multiplication (product rule). -/
def dMul (a b : Dual) : Dual := (a.1 * b.1, a.1 * b.2 + a.2 * b.1)

/-- Dual division (quotient rule). -/
def dDiv (a b : Dual) : Dual := (a.1 / b.1, (a.2 * b.1 - a.1 * b.2) / (b.1 * b.1))

/-- `torch.Tensor.detach` / `torch.no_grad`: keep the value, block the
derivative. -/
def dDetach (a : Dual) : Dual := (a.1, 0)

/-- `einsum("fdmk,fdml->fdkl")` restricted to rank-3 operands, over
duals. -/
def dElementwise (M : Nat) (fs gs : Nat → Nat → Nat → Dual) :
    Nat → Nat → Dual :=
  fun f d => ∑ m ∈ Finset.range M, dMul (fs f d m) (gs f d m)

/-- Mean over the datapoint axis, over duals. -/
def dMeanD (D : Nat) (t : Nat → Nat → Dual) : Nat → Dual :=
  fun f => dDiv (∑ d ∈ Finset.range D, t f d) (dC (D : ℚ))

/-- Centering over the datapoint axis, over duals. -/
def dCenterD (D : Nat) (fs : Nat → Nat → Nat → Dual) :
    Nat → Nat → Nat → Dual :=
  fun f d m => fs f d m - dDiv (∑ d' ∈ Finset.range D, fs f d' m) (dC (D : ℚ))

/-- Centering over the category axis, over duals. -/
def dCenterM (M : Nat) (fs : Nat → Nat → Nat → Dual) :
    Nat → Nat → Nat → Dual :=
  fun f d m => fs f d m - dDiv (∑ m' ∈ Finset.range M, fs f d m') (dC (M : ℚ))

/-- `_inner_product` on rank-3 operands, over duals. -/
def dIP3 (dt : DataType) (D M : Nat) (fs gs : Nat → Nat → Nat → Dual) :
    Nat → Dual :=
  match dt with
  | .deterministic => dMeanD D (dElementwise M fs gs)
  | .stochastic => dMeanD D (dElementwise M (dCenterD D fs) (dCenterD D gs))
  | .categorical => dMeanD D (dElementwise M (dCenterM M fs) (dCenterM M gs))

/-- `self._distance(fs, gs, squared=True).mean()`, over duals. -/
def dDistSqMean (dt : DataType) (F D M : Nat)
    (fs gs : Nat → Nat → Nat → Dual) : Dual :=
  dDiv (∑ f ∈ Finset.range F,
    dIP3 dt D M (fun f' d m => fs f' d m - gs f' d m)
      (fun f' d m => fs f' d m - gs f' d m) f) (dC (F : ℚ))

/-- One epoch body of `train_model` in residual mode, differentiated in
one parameter direction.  Network forwards are abstracted as the dual
tensors they produce on the sampled batch; `solver` abstracts the
configured representation solver of `compute_representation`
(returning the representation and the Gram matrix). -/
structure TrainStep where
  F : Nat
  De : Nat
  Dq : Nat
  M : Nat
  K : Nat
  dt : DataType
  isLS : Bool
  regParam : ℚ
  GsEx : Nat → Nat → Nat → Nat → Dual
  GsQ : Nat → Nat → Nat → Nat → Dual
  avgEx : Nat → Nat → Nat → Dual
  avgQ : Nat → Nat → Nat → Dual
  exYs : Nat → Nat → Nat → ℚ
  qYs : Nat → Nat → Nat → ℚ
  solver : (Nat → Nat → Nat → Nat → Dual) → (Nat → Nat → Nat → Dual) →
    ((Nat → Nat → Dual) × (Nat → Nat → Nat → Dual))

/-- `average_function_loss = self._distance(expected_yhats, query_ys,
squared=True).mean()`. -/
def tsAvgLoss (t : TrainStep) : Dual :=
  dDistSqMean t.dt t.F t.Dq t.M t.avgQ (fun f d m => dC (t.qYs f d m))

/-- The example residuals formed inside `compute_representation` under
`torch.no_grad()`: `example_ys - average(example_xs)` with the average
detached. -/
def tsExResid (t : TrainStep) : Nat → Nat → Nat → Dual :=
  fun f d m => dC (t.exYs f d m) - dDetach (t.avgEx f d m)

/-- The representation and Gram matrix produced by the configured
solver on the basis evaluations and the detached residuals. -/
def tsRepGram (t : TrainStep) :
    (Nat → Nat → Dual) × (Nat → Nat → Nat → Dual) :=
  t.solver t.GsEx (tsExResid t)

/-- `self.predict(query_xs, representation,
precomputed_average_ys=expected_yhats.detach())`. -/
def tsYHats (t : TrainStep) : Nat → Nat → Nat → Dual :=
  fun f d m =>
    (∑ k ∈ Finset.range t.K, dMul (t.GsQ f d m k) ((tsRepGram t).1 f k))
      + dDetach (t.avgQ f d m)

/-- `prediction_loss = self._distance(y_hats, query_ys,
squared=True).mean()`. -/
def tsPredLoss (t : TrainStep) : Dual :=
  dDistSqMean t.dt t.F t.Dq t.M (tsYHats t) (fun f d m => dC (t.qYs f d m))

/-- `norm_loss = ((torch.diagonal(gram) - 1) ** 2).mean()`. -/
def tsNormLoss (t : TrainStep) : Dual :=
  dDiv (∑ f ∈ Finset.range t.F, ∑ k ∈ Finset.range t.K,
      dMul ((tsRepGram t).2 f k k - dC 1) ((tsRepGram t).2 f k k - dC 1))
    (dC ((t.F * t.K : Nat) : ℚ))

/-- The summed loss of the residual-mode training step: prediction
loss, plus the weighted orthonormality penalty in least-squares mode,
plus the average-function loss. -/
def tsTotalLoss (t : TrainStep) : Dual :=
  (if t.isLS then tsPredLoss t + dMul (dC t.regParam) (tsNormLoss t)
    else tsPredLoss t) + tsAvgLoss t

/-- The concrete basis-evaluation tensor used by the C1 witness. -/
def GsW : VTensor := ⟨1, 1, 1, some 1, fun _ _ _ _ => 1⟩

/-- The concrete example-output tensor used by the C1 witness. -/
def ysW : VTensor := ⟨1, 1, 1, none, fun _ _ _ _ => 2⟩

/-- Concrete residual-mode training step used by the C8 witness: a
`1 × 1 × 1` batch with a trivial solver. -/
def tsW : TrainStep :=
  ⟨1, 1, 1, 1, 1, .deterministic, true, 1,
    fun _ _ _ _ => dC 1, fun _ _ _ _ => dC 1,
    fun _ _ _ => dC 2, fun _ _ _ => dC 2,
    fun _ _ _ => 3, fun _ _ _ => 3,
    fun _ _ => (fun _ _ => dC 0, fun _ _ _ => dC 0)⟩

lemma mean_elem_swap (D M : Nat) (fd gd : Nat → Nat → Nat → Nat → ℚ)
    (f k l : Nat) :
    meanDim1 D (elementwiseIP M gd fd) f k l
      = meanDim1 D (elementwiseIP M fd gd) f l k := by
  unfold meanDim1 elementwiseIP
  congr 1
  apply Finset.sum_congr rfl
  intro d _
  apply Finset.sum_congr rfl
  intro m _
  ring

lemma detIPdata_swap (D M : Nat) (fd gd : Nat → Nat → Nat → Nat → ℚ)
    (f k l : Nat) :
    detIPdata D M gd fd f k l = detIPdata D M fd gd f l k :=
  mean_elem_swap D M fd gd f k l

lemma stochIPdata_swap (D M : Nat) (fd gd : Nat → Nat → Nat → Nat → ℚ)
    (f k l : Nat) :
    stochIPdata D M gd fd f k l = stochIPdata D M fd gd f l k :=
  mean_elem_swap D M (centerDim1 D fd) (centerDim1 D gd) f k l

lemma catIPdata_swap (D M : Nat) (fd gd : Nat → Nat → Nat → Nat → ℚ)
    (f k l : Nat) :
    catIPdata D M gd fd f k l = catIPdata D M fd gd f l k :=
  mean_elem_swap D M (centerDim2 M fd) (centerDim2 M gd) f k l

/-- Claim C3: for every pair of evaluation tensors and each of the
three data types, the inner product is symmetric: `inner_product(g, f)`
is the transpose, in the last two axes, of `inner_product(f, g)` (and
the shape assertions fail on one order exactly when they fail on the
other). -/
theorem claim_C3_inner_product_symmetric (dt : DataType) (fs gs : VTensor) :
    innerProduct dt gs fs = Except.map transposeIPR (innerProduct dt fs gs) := by
  obtain ⟨Ff, Df, Mf, Kf, df⟩ := fs
  obtain ⟨Fg, Dg, Mg, Kg, dg⟩ := gs
  by_cases hF : Ff = Fg
  case neg =>
    have hF' : ¬ Fg = Ff := fun h => hF h.symm
    simp [innerProduct, Except.map, hF, hF']
  subst hF
  by_cases hD : Df = Dg
  case neg =>
    have hD' : ¬ Dg = Df := fun h => hD h.symm
    simp [innerProduct, Except.map, hD, hD']
  subst hD
  by_cases hM : Mf = Mg
  case neg =>
    have hM' : ¬ Mg = Mf := fun h => hM h.symm
    simp [innerProduct, Except.map, hM, hM']
  subst hM
  have hdet : detIPdata Df Mf dg df = fun f k l => detIPdata Df Mf df dg f l k := by
    funext f k l
    exact detIPdata_swap Df Mf df dg f k l
  have hsto : stochIPdata Df Mf dg df = fun f k l => stochIPdata Df Mf df dg f l k := by
    funext f k l
    exact stochIPdata_swap Df Mf df dg f k l
  have hcat : catIPdata Df Mf dg df = fun f k l => catIPdata Df Mf df dg f l k := by
    funext f k l
    exact catIPdata_swap Df Mf df dg f k l
  cases dt with
  | deterministic =>
      simp only [innerProduct, ne_eq, not_true_eq_false, if_false, Except.map,
        transposeIPR, hdet]
  | stochastic =>
      by_cases hM1 : Mf = 1
      · simp only [innerProduct, ne_eq, not_true_eq_false, if_false, if_pos hM1,
          Except.map, transposeIPR, hsto]
      · simp only [innerProduct, ne_eq, not_true_eq_false, if_false,
          if_neg hM1, Except.map]
  | categorical =>
      simp only [innerProduct, ne_eq, not_true_eq_false, if_false, Except.map,
        transposeIPR, hcat]

/-- Claim C6: with matching shapes, the deterministic inner product is
the plain Monte-Carlo mean over the `D` datapoints of the element-wise
products summed over the output axis `M`,
`(1/D) Σ_d Σ_m f(x_d) g(x_d)`, with no mean-centering of either
operand. -/
theorem claim_C6_deterministic_ip_is_mc_mean (fs gs : VTensor)
    (hF : fs.F = gs.F) (hD : fs.D = gs.D) (hM : fs.M = gs.M) :
    ∃ r, innerProduct .deterministic fs gs = .ok r ∧ r.F = fs.F
      ∧ r.Kf = fs.K ∧ r.Kg = gs.K
      ∧ ∀ f k l, r.data f k l =
          (1 / (fs.D : ℚ)) * ∑ d ∈ Finset.range fs.D,
            ∑ m ∈ Finset.range fs.M, fs.data f d m k * gs.data f d m l := by
  refine ⟨⟨fs.F, fs.K, gs.K, detIPdata fs.D fs.M fs.data gs.data⟩, ?_, rfl, rfl, rfl, ?_⟩
  · simp [innerProduct, hF, hD, hM]
  · intro f k l
    show (∑ d ∈ Finset.range fs.D, ∑ m ∈ Finset.range fs.M,
        fs.data f d m k * gs.data f d m l) / (fs.D : ℚ) = _
    ring

/-- Witness for claim C6 at a concrete `1 × 2 × 1` pair of rank-3
tensors. -/
theorem claim_C6_witness :
    ∃ r, innerProduct .deterministic
        ⟨1, 2, 1, none, fun _ _ _ _ => 3⟩ ⟨1, 2, 1, none, fun _ _ _ _ => 5⟩ = .ok r
      ∧ r.F = 1 ∧ r.Kf = none ∧ r.Kg = none
      ∧ ∀ f k l, r.data f k l =
          (1 / ((2 : Nat) : ℚ)) * ∑ _d ∈ Finset.range 2, ∑ _m ∈ Finset.range 1,
            (3 : ℚ) * 5 :=
  claim_C6_deterministic_ip_is_mc_mean
    ⟨1, 2, 1, none, fun _ _ _ _ => 3⟩ ⟨1, 2, 1, none, fun _ _ _ _ => 5⟩ rfl rfl rfl

/-- Claim C9: a mismatch in the function axis `F`, the datapoint axis
`D` or the output axis `M` between the two operands of the
inner-product engine is a fail-fast precondition violation (no silent
broadcasting), and the stochastic inner product additionally raises
whenever the output axis differs from `1`. -/
theorem claim_C9_ip_shape_preconditions :
    (∀ (dt : DataType) (fs gs : VTensor),
        fs.F ≠ gs.F ∨ fs.D ≠ gs.D ∨ fs.M ≠ gs.M →
        ∃ e, innerProduct dt fs gs = .error e)
    ∧ (∀ fs gs : VTensor, fs.M ≠ 1 →
        ∃ e, innerProduct .stochastic fs gs = .error e) := by
  constructor
  · intro dt fs gs h
    unfold innerProduct
    rcases h with h | h | h
    · exact ⟨.funcMismatch, by simp [h]⟩
    · by_cases hF : fs.F = gs.F
      · exact ⟨.dataMismatch, by simp [hF, h]⟩
      · exact ⟨.funcMismatch, by simp [hF]⟩
    · by_cases hF : fs.F = gs.F
      · by_cases hD : fs.D = gs.D
        · exact ⟨.outMismatch, by simp [hF, hD, h]⟩
        · exact ⟨.dataMismatch, by simp [hF, hD]⟩
      · exact ⟨.funcMismatch, by simp [hF]⟩
  · intro fs gs h
    unfold innerProduct
    by_cases hF : fs.F = gs.F
    · by_cases hD : fs.D = gs.D
      · by_cases hM : fs.M = gs.M
        · have hM1 : ¬ gs.M = 1 := fun hh => h (hM.trans hh)
          exact ⟨.stochasticOut, by simp [hF, hD, hM, hM ▸ h]⟩
        · exact ⟨.outMismatch, by simp [hF, hD, hM]⟩
      · exact ⟨.dataMismatch, by simp [hF, hD]⟩
    · exact ⟨.funcMismatch, by simp [hF]⟩

/-- Witness for claim C9: a concrete `F` mismatch and a concrete
stochastic tensor with output axis `2`. -/
theorem claim_C9_witness :
    (∃ e, innerProduct .deterministic
        ⟨1, 1, 1, none, fun _ _ _ _ => 0⟩ ⟨2, 1, 1, none, fun _ _ _ _ => 0⟩
        = .error e)
    ∧ (∃ e, innerProduct .stochastic
        ⟨1, 1, 2, none, fun _ _ _ _ => 0⟩ ⟨1, 1, 2, none, fun _ _ _ _ => 0⟩
        = .error e) :=
  ⟨claim_C9_ip_shape_preconditions.1 .deterministic
      ⟨1, 1, 1, none, fun _ _ _ _ => 0⟩ ⟨2, 1, 1, none, fun _ _ _ _ => 0⟩
      (Or.inl (by decide)),
    claim_C9_ip_shape_preconditions.2
      ⟨1, 1, 2, none, fun _ _ _ _ => 0⟩ ⟨1, 1, 2, none, fun _ _ _ _ => 0⟩
      (by decide)⟩

/-- Claim C4, counterexample to the claim as stated: a concrete
single-function (no leading `F` axis) input to
`predict_from_examples` raises its rank assertion instead of being
auto-wrapped. -/
theorem claim_C4_counterexample :
    predictFromExamples
      ⟨1, 1, 1, .deterministic, .innerProductMode,
        (fun _ _ _ _ _ => 0), none, none⟩
      (.single 1 1 (fun _ _ => 0)) (.single 1 1 (fun _ _ => 0))
      (.single 1 1 (fun _ _ => 0)) none = .error .rank := rfl

/-- Claim C4 (amended): `compute_representation` auto-wraps a single
function without a leading `F` dimension to `F = 1` and returns the
squeezed rank-1 representation, equal to the batched path on the
caller-wrapped input with the batch axis removed manually (no stray
singleton axis remains); but `predict_from_examples` requires the
leading `F` dimension and raises on a single-function input. -/
theorem claim_C4_single_function_roundtrip :
    (∀ (fe : FE) (D D' n m : Nat) (dx dy : Nat → Nat → ℚ) (lambd : Option ℚ),
        computeRepresentation fe (.single D n dx) (.single D' m dy) lambd
          = Except.map (fun rg => (squeezeRep rg.1, rg.2))
              (computeRepresentation fe (.batched 1 D n (fun _ => dx))
                (.batched 1 D' m (fun _ => dy)) lambd))
    ∧ (∀ (fe : FE) (D D' n m : Nat) (dx dy : Nat → Nat → ℚ) (lambd : Option ℚ)
        (rep : RepResult) (g : Option (Nat → Nat → Nat → ℚ)),
        computeRepresentation fe (.single D n dx) (.single D' m dy) lambd
            = .ok (rep, g) →
        ∃ dataK, rep = RepResult.single fe.nBasis dataK)
    ∧ (∀ (fe : FE) (D n : Nat) (dx : Nat → Nat → ℚ) (eys qxs : IOTensor)
        (lambd : Option ℚ),
        predictFromExamples fe (.single D n dx) eys qxs lambd = .error .rank) := by
  refine ⟨?_, ?_, ?_⟩
  · intro fe D D' n m dx dy lambd
    by_cases hn : n = fe.inputSize
    · by_cases hm : m = fe.outputSize
      · by_cases hDD : D = D'
        · subst hn; subst hm; subst hDD
          simp only [computeRepresentation, ne_eq, not_true_eq_false, if_false,
            eq_self_iff_true, not_false_iff, or_self, ite_false]
          cases hc : coreRep fe 1 D (fun _ => dx) (fun _ => dy) lambd with
          | error e => rfl
          | ok rg => rfl
        · have hor : ((1 : Nat) ≠ 1 ∨ D ≠ D') := Or.inr hDD
          simp [computeRepresentation, hn, hm, hDD, hor, Except.map]
      · simp [computeRepresentation, hn, hm, Except.map]
    · simp [computeRepresentation, hn, Except.map]
  · intro fe D D' n m dx dy lambd rep g hok
    by_cases hn : n = fe.inputSize
    · by_cases hm : m = fe.outputSize
      · by_cases hDD : D = D'
        · subst hn; subst hm; subst hDD
          simp only [computeRepresentation, ne_eq, not_true_eq_false, if_false,
            eq_self_iff_true, not_false_iff, ite_false] at hok
          cases hc : coreRep fe 1 D (fun _ => dx) (fun _ => dy) lambd with
          | error e =>
              rw [hc] at hok
              exact absurd hok (by simp [Except.map])
          | ok rg =>
              rw [hc] at hok
              simp only [Except.map, Except.ok.injEq, Prod.mk.injEq] at hok
              exact ⟨rg.1 0, hok.1.symm⟩
        · simp [computeRepresentation, hn, hm, hDD] at hok
      · simp [computeRepresentation, hn, hm] at hok
    · simp [computeRepresentation, hn] at hok
  · intro fe D n dx eys qxs lambd
    cases eys <;> cases qxs <;> rfl

/-- Claim C5: `predict` forwards the basis network at the query points
and returns the weighted sum `Σ_k Gs[..., k] · representation[..., k]`;
when an average function is configured its output is added, taking the
supplied precomputed value when one is given — in which case the
configured average network is not consulted at all — and computing it
fresh otherwise. -/
theorem claim_C5_predict_weighted_sum :
    (∀ (fe : FE) (F D n : Nat) (dx : Nat → Nat → Nat → ℚ)
        (r : Nat → Nat → ℚ) (preAvg : Option (Nat → Nat → Nat → ℚ)),
        ∃ yh, predict fe (.batched F D n dx) (.batched F fe.nBasis r) preAvg
            = .ok yh
          ∧ ∀ f d m, yh f d m =
              (∑ k ∈ Finset.range fe.nBasis, fe.modelForward dx f d m k * r f k)
                + (match fe.avgForward, preAvg with
                   | some _, some p => p f d m
                   | some av, none => av dx f d m
                   | none, _ => 0))
    ∧ (∀ (fe : FE) (av av' : (Nat → Nat → Nat → ℚ) → (Nat → Nat → Nat → ℚ))
        (qxs : IOTensor) (reps : RepResult) (p : Nat → Nat → Nat → ℚ),
        predict { fe with avgForward := some av } qxs reps (some p)
          = predict { fe with avgForward := some av' } qxs reps (some p)) := by
  constructor
  · intro fe F D n dx r preAvg
    cases hav : fe.avgForward with
    | none =>
        refine ⟨fun f d m => ∑ k ∈ Finset.range fe.nBasis,
          fe.modelForward dx f d m k * r f k, ?_, ?_⟩
        · simp [predict, hav]
        · intro f d m
          simp [hav]
    | some av =>
        cases preAvg with
        | none =>
            refine ⟨fun f d m => (∑ k ∈ Finset.range fe.nBasis,
              fe.modelForward dx f d m k * r f k) + av dx f d m, ?_, ?_⟩
            · simp [predict, hav, Option.getD]
            · intro f d m
              simp [hav]
        | some p =>
            refine ⟨fun f d m => (∑ k ∈ Finset.range fe.nBasis,
              fe.modelForward dx f d m k * r f k) + p f d m, ?_, ?_⟩
            · simp [predict, hav, Option.getD]
            · intro f d m
              simp [hav]
  · intro fe av av' qxs reps p
    cases qxs <;> cases reps <;> rfl

/-- Claim C7: in `encoder_network` mode with the residual wrapper
active, the representation encoder is applied to the example outputs
exactly as supplied by the caller (the average-function output is
subtracted and then added back), not to the residuals. -/
theorem claim_C7_encoder_sees_original_ys (fe : FE)
    (enc : (Nat → Nat → Nat → ℚ) → (Nat → Nat → Nat → ℚ) → (Nat → Nat → ℚ))
    (av : (Nat → Nat → Nat → ℚ) → (Nat → Nat → Nat → ℚ))
    (hmode : fe.mode = .encoderNetwork) (henc : fe.encForward = some enc)
    (hav : fe.avgForward = some av) (F D : Nat)
    (dx dy : Nat → Nat → Nat → ℚ) (lambd : Option ℚ) :
    computeRepresentation fe (.batched F D fe.inputSize dx)
        (.batched F D fe.outputSize dy) lambd
      = .ok (.batched F fe.nBasis (enc dx dy), none) := by
  have hys : (fun f d m => dy f d m - av dx f d m + av dx f d m) = dy := by
    funext f d m
    ring
  simp only [computeRepresentation, ne_eq, not_true_eq_false, if_false,
    eq_self_iff_true, not_false_iff, or_self, ite_false]
  unfold coreRep
  rw [hmode, henc, hav]
  show Except.ok (RepResult.batched F fe.nBasis
      (enc dx (fun f d m => dy f d m - av dx f d m + av dx f d m)), none) = _
  rw [hys]

/-- Witness for claim C7: a concrete encoder-mode, residual-mode
encoder applied to a concrete example batch. -/
theorem claim_C7_witness :
    computeRepresentation
        ⟨1, 1, 2, .deterministic, .encoderNetwork, (fun _ _ _ _ _ => 0),
          some (fun xs f d m => xs f d m + 1),
          some (fun xs ys f k => xs f k 0 * ys f k 0)⟩
        (.batched 1 3 1 (fun _ _ _ => 2)) (.batched 1 3 1 (fun _ _ _ => 7)) none
      = .ok (.batched 1 2 ((fun xs ys f k => xs f k 0 * ys f k 0)
          (fun _ _ _ => (2 : ℚ)) (fun _ _ _ => (7 : ℚ))), none) :=
  claim_C7_encoder_sees_original_ys
    ⟨1, 1, 2, .deterministic, .encoderNetwork, (fun _ _ _ _ _ => 0),
      some (fun xs f d m => xs f d m + 1),
      some (fun xs ys f k => xs f k 0 * ys f k 0)⟩
    (fun xs ys f k => xs f k 0 * ys f k 0) (fun xs f d m => xs f d m + 1)
    rfl rfl rfl 1 3 (fun _ _ _ => 2) (fun _ _ _ => 7) none

lemma innerProduct_ok (dt : DataType) (fs gs : VTensor)
    (hF : fs.F = gs.F) (hD : fs.D = gs.D) (hM : fs.M = gs.M)
    (hst : dt = DataType.stochastic → fs.M = 1) :
    innerProduct dt fs gs
      = .ok ⟨fs.F, fs.K, gs.K, ipData dt fs.D fs.M fs.data gs.data⟩ := by
  cases dt with
  | deterministic => simp [innerProduct, hF, hD, hM, ipData]
  | stochastic => simp [innerProduct, hF, hD, hM, ipData, hM ▸ hst rfl]
  | categorical => simp [innerProduct, hF, hD, hM, ipData]

lemma computeLSRep_ok (dt : DataType) (nB : Nat) (Gs ys : VTensor)
    (lambd : Option ℚ) (hGk : Gs.K = some nB) (hyk : ys.K = none)
    (hF : Gs.F = ys.F) (hD : Gs.D = ys.D) (hM : Gs.M = ys.M)
    (hst : dt = DataType.stochastic → Gs.M = 1)
    (hneg : lambdaNegative lambd = false) :
    computeLeastSquaresRepresentation dt nB Gs ys lambd
      = .ok (lsRepData dt nB Gs ys (lambd.getD (1 / 1000)),
          ⟨Gs.F, Gs.K, Gs.K, ipData dt Gs.D Gs.M Gs.data Gs.data⟩) := by
  have h1 := innerProduct_ok dt Gs Gs rfl rfl rfl hst
  have h2 := innerProduct_ok dt Gs ys hF hD hM hst
  have hF' : (Gs.F ≠ ys.F) = False := by simp [hF]
  have hD' : (Gs.D ≠ ys.D) = False := by simp [hD]
  have hM' : (Gs.M ≠ ys.M) = False := by simp [hM]
  simp only [computeLeastSquaresRepresentation, hGk, Option.isNone_some, hyk,
    Option.isSome_none, Bool.false_eq_true, if_false, hF', hD', hM',
    hneg, h1, h2]
  rfl

lemma ipData_slice (dt : DataType) (D M : Nat)
    (fd gd fd' gd' : Nat → Nat → Nat → Nat → ℚ) (f : Nat)
    (hfd : ∀ d m k, fd' f d m k = fd f d m k)
    (hgd : ∀ d m k, gd' f d m k = gd f d m k) :
    ∀ k l, ipData dt D M fd' gd' f k l = ipData dt D M fd gd f k l := by
  intro k l
  cases dt with
  | deterministic =>
      simp only [ipData, detIPdata, meanDim1, elementwiseIP]
      congr 1
      apply Finset.sum_congr rfl
      intro d _
      apply Finset.sum_congr rfl
      intro m _
      rw [hfd, hgd]
  | stochastic =>
      simp only [ipData, stochIPdata, meanDim1, elementwiseIP, centerDim1]
      congr 1
      apply Finset.sum_congr rfl
      intro d _
      apply Finset.sum_congr rfl
      intro m _
      rw [hfd d m k, hgd d m l,
        Finset.sum_congr rfl (fun d' _ => hfd d' m k),
        Finset.sum_congr rfl (fun d' _ => hgd d' m l)]
  | categorical =>
      simp only [ipData, catIPdata, meanDim1, elementwiseIP, centerDim2]
      congr 1
      apply Finset.sum_congr rfl
      intro d _
      apply Finset.sum_congr rfl
      intro m _
      rw [hfd d m k, hgd d m l,
        Finset.sum_congr rfl (fun m' _ => hfd d m' k),
        Finset.sum_congr rfl (fun m' _ => hgd d m' l)]

lemma gramRegData_matrix (dt : DataType) (nB : Nat) (Gs : VTensor) (lam : ℚ)
    (f : Nat) :
    (Matrix.of fun a b : Fin nB => gramRegData dt Gs lam f a.val b.val)
      = gramMat dt nB Gs f + lam • (1 : Matrix (Fin nB) (Fin nB) ℚ) := by
  ext a b
  by_cases hab : a = b
  · subst hab
    simp [gramRegData, gramMat, Matrix.add_apply, Matrix.smul_apply,
      Matrix.one_apply, ipData]
  · have hv : ¬ a.val = b.val := fun h => hab (Fin.val_injective h)
    simp [gramRegData, gramMat, Matrix.add_apply, Matrix.smul_apply,
      Matrix.one_apply, hab, hv, ipData]

lemma lsRepData_mulVec (dt : DataType) (nB : Nat) (Gs ys : VTensor) (lam : ℚ)
    (f k : Nat) (hk : k < nB) :
    lsRepData dt nB Gs ys lam f k
      = (matInv nB (gramMat dt nB Gs f
          + lam • (1 : Matrix (Fin nB) (Fin nB) ℚ))).mulVec
          (bVec dt nB Gs ys f) ⟨k, hk⟩ := by
  unfold lsRepData
  rw [← Fin.sum_univ_eq_sum_range
    (fun l => invData nB (gramRegData dt Gs lam f) k l
      * ipData dt Gs.D Gs.M Gs.data ys.data f l 0) nB]
  unfold Matrix.mulVec Matrix.dotProduct
  apply Finset.sum_congr rfl
  intro l _
  unfold invData
  rw [dif_pos hk, dif_pos l.isLt]
  rw [show (Matrix.of fun a b : Fin nB => gramRegData dt Gs lam f a.val b.val)
    = gramMat dt nB Gs f + lam • (1 : Matrix (Fin nB) (Fin nB) ℚ)
    from gramRegData_matrix dt nB Gs lam f]
  rfl

lemma lsRepData_slice (dt : DataType) (nB : Nat) (Gs ys Gs' ys' : VTensor)
    (l : ℚ) (f : Nat) (hD1 : Gs'.D = Gs.D) (hM1 : Gs'.M = Gs.M)
    (hGdat : ∀ d m k, Gs'.data f d m k = Gs.data f d m k)
    (hydat : ∀ d m k, ys'.data f d m k = ys.data f d m k) :
    ∀ k, lsRepData dt nB Gs' ys' l f k = lsRepData dt nB Gs ys l f k := by
  intro k
  have hGd := ipData_slice dt Gs.D Gs.M Gs.data Gs.data Gs'.data Gs'.data f
    hGdat hGdat
  have hbd := ipData_slice dt Gs.D Gs.M Gs.data ys.data Gs'.data ys'.data f
    hGdat hydat
  have harg : gramRegData dt Gs' l f = gramRegData dt Gs l f := by
    funext a b
    unfold gramRegData
    rw [hD1, hM1, hGd a b]
  unfold lsRepData
  rw [harg]
  apply Finset.sum_congr rfl
  intro j _
  rw [hD1, hM1, hbd j 0]

/-- Claim C1: the least-squares solver rejects a negative `λ`; when `λ`
is omitted it uses the constant `1e-3` (independently of the number of
datapoints `D`); on the success path it returns, per function `f`, the
coefficients `(Gram + λI)⁻¹ b` with `Gram = ⟨Gs, Gs⟩` and
`b = ⟨Gs, example_ys⟩` (together with the unregularized Gram matrix);
and the result for function `f` reads no data of any other function in
the batch. -/
theorem claim_C1_least_squares_solver (dt : DataType) (nB : Nat)
    (Gs ys : VTensor) (hGk : Gs.K = some nB) (hyk : ys.K = none)
    (hF : Gs.F = ys.F) (hD : Gs.D = ys.D) (hM : Gs.M = ys.M)
    (hst : dt = DataType.stochastic → Gs.M = 1) :
    (∀ l : ℚ, l < 0 →
        computeLeastSquaresRepresentation dt nB Gs ys (some l)
          = .error .negLambda)
    ∧ computeLeastSquaresRepresentation dt nB Gs ys none
        = computeLeastSquaresRepresentation dt nB Gs ys (some (1 / 1000))
    ∧ (∀ l : ℚ, 0 ≤ l → ∃ rep gram,
        computeLeastSquaresRepresentation dt nB Gs ys (some l)
            = .ok (rep, gram)
        ∧ (∀ f k l', gram.data f k l'
            = ipData dt Gs.D Gs.M Gs.data Gs.data f k l')
        ∧ (∀ f k, ∀ hk : k < nB, rep f k
            = (matInv nB (gramMat dt nB Gs f
                + l • (1 : Matrix (Fin nB) (Fin nB) ℚ))).mulVec
                (bVec dt nB Gs ys f) ⟨k, hk⟩)
        ∧ (∀ (Gs' ys' : VTensor) (f : Nat),
            Gs'.F = Gs.F → Gs'.D = Gs.D → Gs'.M = Gs.M → Gs'.K = Gs.K →
            ys'.F = ys.F → ys'.D = ys.D → ys'.M = ys.M → ys'.K = ys.K →
            (∀ d m k, Gs'.data f d m k = Gs.data f d m k) →
            (∀ d m k, ys'.data f d m k = ys.data f d m k) →
            ∀ rep' gram',
              computeLeastSquaresRepresentation dt nB Gs' ys' (some l)
                  = .ok (rep', gram') →
              (∀ k, rep' f k = rep f k)
                ∧ (∀ k l', gram'.data f k l' = gram.data f k l'))) := by
  have hF' : (Gs.F ≠ ys.F) = False := by simp [hF]
  have hD' : (Gs.D ≠ ys.D) = False := by simp [hD]
  have hM' : (Gs.M ≠ ys.M) = False := by simp [hM]
  refine ⟨?_, ?_, ?_⟩
  · intro l hl
    have hneg : lambdaNegative (some l) = true := by
      simp [lambdaNegative, hl]
    simp only [computeLeastSquaresRepresentation, hGk, Option.isNone_some,
      hyk, Option.isSome_none, Bool.false_eq_true, if_false, hF', hD', hM',
      hneg, if_true]
  · have hneg : lambdaNegative (some (1 / 1000)) = false := by
      simp [lambdaNegative, not_lt.mpr (by norm_num : (0 : ℚ) ≤ 1 / 1000)]
    rw [computeLSRep_ok dt nB Gs ys none hGk hyk hF hD hM hst rfl,
      computeLSRep_ok dt nB Gs ys (some (1 / 1000)) hGk hyk hF hD hM hst hneg]
    rfl
  · intro l hl
    have hneg : lambdaNegative (some l) = false := by
      simp [lambdaNegative, not_lt.mpr hl]
    refine ⟨lsRepData dt nB Gs ys l,
      ⟨Gs.F, Gs.K, Gs.K, ipData dt Gs.D Gs.M Gs.data Gs.data⟩,
      computeLSRep_ok dt nB Gs ys (some l) hGk hyk hF hD hM hst hneg,
      fun f k l' => rfl,
      fun f k hk => lsRepData_mulVec dt nB Gs ys l f k hk, ?_⟩
    intro Gs' ys' f hF1 hD1 hM1 hK1 hF2 hD2 hM2 hK2 hGdat hydat rep' gram' hok'
    have hst' : dt = DataType.stochastic → Gs'.M = 1 :=
      fun h => hM1.trans (hst h)
    rw [computeLSRep_ok dt nB Gs' ys' (some l) (hK1.trans hGk)
      (hK2.trans hyk) ((hF1.trans hF).trans hF2.symm)
      ((hD1.trans hD).trans hD2.symm) ((hM1.trans hM).trans hM2.symm)
      hst' hneg] at hok'
    simp only [Except.ok.injEq, Prod.mk.injEq] at hok'
    obtain ⟨hr, hg⟩ := hok'
    subst hr
    subst hg
    constructor
    · exact lsRepData_slice dt nB Gs ys Gs' ys' l f hD1 hM1 hGdat hydat
    · intro k l'
      show ipData dt Gs'.D Gs'.M Gs'.data Gs'.data f k l'
        = ipData dt Gs.D Gs.M Gs.data Gs.data f k l'
      rw [hD1, hM1]
      exact ipData_slice dt Gs.D Gs.M Gs.data Gs.data Gs'.data Gs'.data f
        hGdat hGdat k l'

/-- Witness for claim C1 at a concrete `F = D = M = K = 1` batch. -/
theorem claim_C1_witness :
    (∀ l : ℚ, l < 0 →
        computeLeastSquaresRepresentation .deterministic 1 GsW ysW (some l)
          = .error .negLambda)
    ∧ computeLeastSquaresRepresentation .deterministic 1 GsW ysW none
        = computeLeastSquaresRepresentation .deterministic 1 GsW ysW
            (some (1 / 1000))
    ∧ (∀ l : ℚ, 0 ≤ l → ∃ rep gram,
        computeLeastSquaresRepresentation .deterministic 1 GsW ysW (some l)
            = .ok (rep, gram)
        ∧ (∀ f k l', gram.data f k l'
            = ipData .deterministic GsW.D GsW.M GsW.data GsW.data f k l')
        ∧ (∀ f k, ∀ hk : k < 1, rep f k
            = (matInv 1 (gramMat .deterministic 1 GsW f
                + l • (1 : Matrix (Fin 1) (Fin 1) ℚ))).mulVec
                (bVec .deterministic 1 GsW ysW f) ⟨k, hk⟩)
        ∧ (∀ (Gs' ys' : VTensor) (f : Nat),
            Gs'.F = GsW.F → Gs'.D = GsW.D → Gs'.M = GsW.M → Gs'.K = GsW.K →
            ys'.F = ysW.F → ys'.D = ysW.D → ys'.M = ysW.M → ys'.K = ysW.K →
            (∀ d m k, Gs'.data f d m k = GsW.data f d m k) →
            (∀ d m k, ys'.data f d m k = ysW.data f d m k) →
            ∀ rep' gram',
              computeLeastSquaresRepresentation .deterministic 1 Gs' ys'
                  (some l) = .ok (rep', gram') →
              (∀ k, rep' f k = rep f k)
                ∧ (∀ k l', gram'.data f k l' = gram.data f k l'))) :=
  claim_C1_least_squares_solver .deterministic 1 GsW ysW rfl rfl rfl rfl rfl
    (fun _ => rfl)

lemma mlp_actual_eq_predict (i o nb h nL : Nat) (hL : 2 ≤ nL) (lb : Bool) :
    mlpActualParams i o nb h nL lb = mlpPredictNumberParams i o nb h nL lb := by
  unfold mlpActualParams mlpPredictNumberParams linearParams
  rw [Nat.cast_sub hL]
  push_cast
  ring

lemma encStack_actual_eq_predict (i o h nL : Nat) (useLN : Bool) :
    encStackActualParams i o h nL useLN = encStackPredictParams i o h nL useLN := by
  unfold encStackActualParams encStackPredictParams linearParams layerNormParams
  by_cases h1 : nL = 1
  · simp only [h1, if_true, ite_true]
    ring
  · simp only [h1, if_false, ite_false]
    cases useLN
    · simp only [Bool.false_eq_true, if_false, ite_false]
      ring
    · simp only [if_true, ite_true]
      ring

lemma encoder_actual_eq_predict (i o nb ph pl rh rl : Nat) (agg : Aggregation)
    (useLN : Bool) :
    encoderActualParams i o nb ph pl rh rl agg useLN
      = encoderPredictNumberParams i o nb ph pl rh rl agg useLN := by
  unfold encoderActualParams encoderPredictNumberParams
  rw [encStack_actual_eq_predict, encStack_actual_eq_predict]
  by_cases ha : agg = Aggregation.attention
  · simp only [ha, if_true, ite_true, linearParams]
    ring
  · simp only [ha, if_false, ite_false]

lemma fe_actual_eq_predict (c : FEConfig) (hL : 2 ≤ c.nLayers) :
    feActualParams c = fePredictNumberParams c := by
  unfold feActualParams fePredictNumberParams
  rw [mlp_actual_eq_predict _ _ _ _ _ hL, mlp_actual_eq_predict _ _ _ _ _ hL,
    encoder_actual_eq_predict]

/-- Claim C2: whenever construction succeeds, the total parameter count
of the assembled encoder equals the closed-form oracle; construction
fails fast whenever the two disagree; and for every configuration with
at least two MLP layers and non-degenerate input/output sizes the two
always agree and construction succeeds. -/
theorem claim_C2_param_count_oracle :
    (∀ c : FEConfig, feInit c = .ok () →
        feActualParams c = fePredictNumberParams c)
    ∧ (∀ c : FEConfig, feActualParams c ≠ fePredictNumberParams c →
        ∃ e, feInit c = .error e)
    ∧ (∀ c : FEConfig, 1 ≤ c.inputSize → 1 ≤ c.outputSize → 2 ≤ c.nLayers →
        feInit c = .ok () ∧ feActualParams c = fePredictNumberParams c) := by
  refine ⟨?_, ?_, ?_⟩
  · intro c h
    by_contra hne
    unfold feInit at h
    split_ifs at h
  · intro c hne
    cases hfe : feInit c with
    | error e => exact ⟨e, rfl⟩
    | ok u =>
        exfalso
        unfold feInit at hfe
        split_ifs at hfe
  · intro c hin hout hL
    have e1 := mlp_actual_eq_predict c.inputSize c.outputSize c.nBasis
      c.hiddenSize c.nLayers hL true
    have e2 := mlp_actual_eq_predict c.inputSize c.outputSize c.nBasis
      c.hiddenSize c.nLayers hL false
    have e3 := encoder_actual_eq_predict c.inputSize c.outputSize c.nBasis
      c.phiHidden c.phiLayers c.rhoHidden c.rhoLayers c.aggregation
      c.useLayerNorm
    have e4 := fe_actual_eq_predict c hL
    refine ⟨?_, e4⟩
    unfold feInit
    rw [if_neg (by omega : ¬ c.inputSize < 1),
      if_neg (by omega : ¬ c.outputSize < 1),
      if_neg (by simp [e1]), if_neg (by simp [e2]), if_neg (by simp [e3]),
      if_neg (by simp [e4])]

/-- Witness for claim C2 at a concrete two-layer residual-mode
configuration. -/
theorem claim_C2_witness :
    feInit ⟨1, 1, 1, 1, 2, .leastSquares, true, 1, 1, 1, 1, .mean, false⟩
        = .ok ()
      ∧ feActualParams
          ⟨1, 1, 1, 1, 2, .leastSquares, true, 1, 1, 1, 1, .mean, false⟩
        = fePredictNumberParams
          ⟨1, 1, 1, 1, 2, .leastSquares, true, 1, 1, 1, 1, .mean, false⟩ :=
  claim_C2_param_count_oracle.2.2
    ⟨1, 1, 1, 1, 2, .leastSquares, true, 1, 1, 1, 1, .mean, false⟩
    (by decide) (by decide) (by decide)

lemma maxOverD_comp_perm (D : Nat) (g : Fin D → ℚ) (σ : Equiv.Perm (Fin D)) :
    maxOverD D (fun d => g (σ d)) = maxOverD D g := by
  unfold maxOverD
  by_cases h : 0 < D
  · haveI : Nonempty (Fin D) := ⟨⟨0, h⟩⟩
    rw [dif_pos h, dif_pos h]
    apply le_antisymm
    · apply Finset.sup'_le
      intro d _
      exact Finset.le_sup' g (Finset.mem_univ (σ d))
    · apply Finset.sup'_le
      intro d _
      have hd : g d = (fun d' => g (σ d')) (σ.symm d) := by simp
      rw [hd]
      exact Finset.le_sup' (fun d' => g (σ d')) (Finset.mem_univ (σ.symm d))
  · rw [dif_neg h, dif_neg h]

/-- Claim C10: the Deep Sets representation encoder is invariant under
any permutation of the example datapoints (applied identically to
`example_xs` and `example_ys`), for each of the four aggregation
choices. -/
theorem claim_C10_deepsets_permutation_invariant
    {inDim outDim phiDim nBasis : Nat}
    (e : DeepSets inDim outDim phiDim nBasis) (F D : Nat)
    (xs : Fin F → Fin D → Fin inDim → ℚ)
    (ys : Fin F → Fin D → Fin outDim → ℚ) (σ : Equiv.Perm (Fin D)) :
    dsForward e F D (fun f d => xs f (σ d)) (fun f d => ys f (σ d))
      = dsForward e F D xs ys := by
  funext f
  unfold dsForward
  apply congrArg e.rho
  cases hagg : e.aggregation with
  | mean =>
      funext j
      dsimp only
      have hs := Equiv.sum_comp σ
        (fun d => e.phi (Fin.append (xs f d) (ys f d)) j)
      rw [hs]
  | sum =>
      funext j
      dsimp only
      have hs := Equiv.sum_comp σ
        (fun d => e.phi (Fin.append (xs f d) (ys f d)) j)
      rw [hs]
  | max =>
      funext j
      dsimp only
      exact maxOverD_comp_perm D
        (fun d => e.phi (Fin.append (xs f d) (ys f d)) j) σ
  | attention =>
      funext j
      dsimp only
      have hS := Equiv.sum_comp σ
        (fun d => e.expFn (e.attentionNet (e.phi (Fin.append (xs f d) (ys f d)))))
      rw [hS]
      have hO := Equiv.sum_comp σ
        (fun d => e.phi (Fin.append (xs f d) (ys f d)) j *
          (e.expFn (e.attentionNet (e.phi (Fin.append (xs f d) (ys f d)))) /
            ∑ d', e.expFn (e.attentionNet (e.phi (Fin.append (xs f d') (ys f d'))))))
      rw [hO]

lemma snd_sum {α : Type} (s : Finset α) (g : α → Dual) :
    (∑ x ∈ s, g x).2 = ∑ x ∈ s, (g x).2 :=
  map_sum (AddMonoidHom.snd ℚ ℚ) g s

lemma dMul_snd_zero {a b : Dual} (ha : a.2 = 0) (hb : b.2 = 0) :
    (dMul a b).2 = 0 := by
  simp [dMul, ha, hb]

lemma dDiv_snd_zero {a b : Dual} (ha : a.2 = 0) (hb : b.2 = 0) :
    (dDiv a b).2 = 0 := by
  simp [dDiv, ha, hb]

lemma dCenterD_snd_zero (D : Nat) (fs : Nat → Nat → Nat → Dual)
    (hfs : ∀ f d m, (fs f d m).2 = 0) :
    ∀ f d m, (dCenterD D fs f d m).2 = 0 := by
  intro f d m
  unfold dCenterD
  rw [Prod.snd_sub, hfs]
  rw [dDiv_snd_zero _ rfl]
  · ring
  · rw [snd_sum]
    exact Finset.sum_eq_zero fun d' _ => hfs f d' m

lemma dCenterM_snd_zero (M : Nat) (fs : Nat → Nat → Nat → Dual)
    (hfs : ∀ f d m, (fs f d m).2 = 0) :
    ∀ f d m, (dCenterM M fs f d m).2 = 0 := by
  intro f d m
  unfold dCenterM
  rw [Prod.snd_sub, hfs]
  rw [dDiv_snd_zero _ rfl]
  · ring
  · rw [snd_sum]
    exact Finset.sum_eq_zero fun m' _ => hfs f d m'

lemma dElementwise_snd_zero (M : Nat) (fs gs : Nat → Nat → Nat → Dual)
    (hfs : ∀ f d m, (fs f d m).2 = 0) (hgs : ∀ f d m, (gs f d m).2 = 0) :
    ∀ f d, (dElementwise M fs gs f d).2 = 0 := by
  intro f d
  unfold dElementwise
  rw [snd_sum]
  exact Finset.sum_eq_zero fun m _ => dMul_snd_zero (hfs f d m) (hgs f d m)

lemma dMeanD_snd_zero (D : Nat) (t : Nat → Nat → Dual)
    (ht : ∀ f d, (t f d).2 = 0) : ∀ f, (dMeanD D t f).2 = 0 := by
  intro f
  unfold dMeanD
  apply dDiv_snd_zero _ rfl
  rw [snd_sum]
  exact Finset.sum_eq_zero fun d _ => ht f d

lemma dIP3_snd_zero (dt : DataType) (D M : Nat)
    (fs gs : Nat → Nat → Nat → Dual)
    (hfs : ∀ f d m, (fs f d m).2 = 0) (hgs : ∀ f d m, (gs f d m).2 = 0) :
    ∀ f, (dIP3 dt D M fs gs f).2 = 0 := by
  intro f
  cases dt with
  | deterministic =>
      exact dMeanD_snd_zero D _ (dElementwise_snd_zero M fs gs hfs hgs) f
  | stochastic =>
      exact dMeanD_snd_zero D _ (dElementwise_snd_zero M _ _
        (dCenterD_snd_zero D fs hfs) (dCenterD_snd_zero D gs hgs)) f
  | categorical =>
      exact dMeanD_snd_zero D _ (dElementwise_snd_zero M _ _
        (dCenterM_snd_zero M fs hfs) (dCenterM_snd_zero M gs hgs)) f

lemma dDistSqMean_snd_zero (dt : DataType) (F D M : Nat)
    (fs gs : Nat → Nat → Nat → Dual)
    (hfs : ∀ f d m, (fs f d m).2 = 0) (hgs : ∀ f d m, (gs f d m).2 = 0) :
    (dDistSqMean dt F D M fs gs).2 = 0 := by
  unfold dDistSqMean
  apply dDiv_snd_zero _ rfl
  rw [snd_sum]
  apply Finset.sum_eq_zero
  intro f _
  apply dIP3_snd_zero
  all_goals intro f' d m
  all_goals rw [Prod.snd_sub, hfs, hgs]
  all_goals ring

/-- Claim C8: in residual mode, the average-function output is
detached before entering the basis-function prediction loss, so in any
differentiation direction that moves only the average function's
parameters (the basis evaluations are constants) the prediction loss
has derivative zero and the total loss gradient equals the
average-function loss gradient alone; symmetrically, in a direction
that moves only basis parameters, the average-function loss has
derivative zero.  The solver may be any map sending derivative-free
inputs to derivative-free outputs, as every arithmetic solver does. -/
theorem claim_C8_residual_gradient_blocking (t : TrainStep)
    (hsolver : ∀ Gs ys, (∀ f d m k, (Gs f d m k).2 = 0) →
        (∀ f d m, (ys f d m).2 = 0) →
        (∀ f k, ((t.solver Gs ys).1 f k).2 = 0)
          ∧ (∀ f k l, ((t.solver Gs ys).2 f k l).2 = 0)) :
    ((∀ f d m k, (t.GsEx f d m k).2 = 0) →
      (∀ f d m k, (t.GsQ f d m k).2 = 0) →
        (tsPredLoss t).2 = 0 ∧ (tsTotalLoss t).2 = (tsAvgLoss t).2)
    ∧ ((∀ f d m, (t.avgEx f d m).2 = 0) →
        (∀ f d m, (t.avgQ f d m).2 = 0) → (tsAvgLoss t).2 = 0) := by
  constructor
  · intro hGE hGQ
    have hres : ∀ f d m, (tsExResid t f d m).2 = 0 := by
      intro f d m
      unfold tsExResid
      rw [Prod.snd_sub]
      show (0 : ℚ) - 0 = 0
      ring
    obtain ⟨hrep, hgram⟩ := hsolver t.GsEx (tsExResid t) hGE hres
    have hrep2 : ∀ f k, ((tsRepGram t).1 f k).2 = 0 := hrep
    have hgram2 : ∀ f k l, ((tsRepGram t).2 f k l).2 = 0 := hgram
    have hyh : ∀ f d m, (tsYHats t f d m).2 = 0 := by
      intro f d m
      unfold tsYHats
      rw [Prod.snd_add, snd_sum]
      rw [Finset.sum_eq_zero fun k _ => dMul_snd_zero (hGQ f d m k) (hrep2 f k)]
      show (0 : ℚ) + 0 = 0
      ring
    have hpred : (tsPredLoss t).2 = 0 := by
      unfold tsPredLoss
      exact dDistSqMean_snd_zero t.dt t.F t.Dq t.M _ _ hyh (fun _ _ _ => rfl)
    refine ⟨hpred, ?_⟩
    have hnorm : (tsNormLoss t).2 = 0 := by
      unfold tsNormLoss
      apply dDiv_snd_zero _ rfl
      rw [snd_sum]
      apply Finset.sum_eq_zero
      intro f _
      rw [snd_sum]
      apply Finset.sum_eq_zero
      intro k _
      apply dMul_snd_zero
      all_goals rw [Prod.snd_sub, hgram2]
      all_goals simp [dC]
    unfold tsTotalLoss
    cases hLS : t.isLS
    · rw [if_neg (by simp [hLS])]
      rw [Prod.snd_add, hpred]
      ring
    · rw [if_pos (by simp [hLS])]
      rw [Prod.snd_add, Prod.snd_add, hpred,
        dMul_snd_zero (rfl : (dC t.regParam).2 = 0) hnorm]
      ring
  · intro hAE hAQ
    unfold tsAvgLoss
    exact dDistSqMean_snd_zero t.dt t.F t.Dq t.M _ _ hAQ (fun _ _ _ => rfl)

/-- Witness for claim C8 at the concrete training step `tsW` with a
trivial derivative-free solver. -/
theorem claim_C8_witness :
    ((∀ f d m k, (tsW.GsEx f d m k).2 = 0) →
      (∀ f d m k, (tsW.GsQ f d m k).2 = 0) →
        (tsPredLoss tsW).2 = 0 ∧ (tsTotalLoss tsW).2 = (tsAvgLoss tsW).2)
    ∧ ((∀ f d m, (tsW.avgEx f d m).2 = 0) →
        (∀ f d m, (tsW.avgQ f d m).2 = 0) → (tsAvgLoss tsW).2 = 0) :=
  claim_C8_residual_gradient_blocking tsW
    (fun _ _ _ _ => ⟨fun _ _ => rfl, fun _ _ _ => rfl⟩)

/-- Witness for claim C4: the single-function path at a concrete
inner-product-mode encoder returns a rank-1 representation. -/
theorem claim_C4_witness :
    ∃ dataK,
      RepResult.single 1
          (fun k => detIPdata 1 1 (fun _ _ _ _ => (1 : ℚ))
            (fun _ _ _ _ => (2 : ℚ)) 0 k 0)
        = RepResult.single 1 dataK :=
  claim_C4_single_function_roundtrip.2.1
    ⟨1, 1, 1, .deterministic, .innerProductMode, (fun _ _ _ _ _ => 1),
      none, none⟩
    1 1 1 1 (fun _ _ => 0) (fun _ _ => 2) none
    (RepResult.single 1
      (fun k => detIPdata 1 1 (fun _ _ _ _ => (1 : ℚ))
        (fun _ _ _ _ => (2 : ℚ)) 0 k 0))
    none rfl
